import Mathlib

/-!
Verification development for the LabLensAI ingestion / analysis / chat core.

The definitions below are shallow embeddings of the TypeScript source:
* `geminiService` (analysis request construction, response parsing, chat
  history role translation),
* `Uploader` in `Dashboard.tsx` (file normalization: `compressImage`,
  `processFile`),
* `ChatWindow.tsx` (chat session state: greeting effect, `handleSendMessage`
  guard, streaming accumulation),
* `BiomarkerCard` in `Dashboard.tsx` (`percentChange`).

JavaScript numbers are modelled as `ℚ`, strings as `String`, arrays as
`List`, `undefined`-able fields as `Option`.
-/

/-! ## JSON values and a model of the `JSON.parse` builtin

`analyzeReports` ends with `JSON.parse(response.text || '\x7b\x7d')`.
`JSON.parse` is a JavaScript builtin (external to the repository); it is
modelled here by a recursive-descent parser over the character list.  The
model keeps the builtin's essential behaviour: a syntactically valid JSON
document parses to a value, anything else is a thrown `SyntaxError`
(`none`).  String escapes are modelled as single-character escapes and
numeric exponents are omitted; no claim exercises those corners. -/

inductive Json where
  | null : Json
  | bool (b : Bool) : Json
  | num (q : ℚ) : Json
  | str (s : String) : Json
  | arr (items : List Json) : Json
  | obj (fields : List (String × Json)) : Json

/-- The `\x7b` character. -/
def lbraceChar : Char := Char.ofNat 123

/-- The `\x7d` character. -/
def rbraceChar : Char := Char.ofNat 125

/-- The double-quote character. -/
def quoteChar : Char := Char.ofNat 34

/-- The backslash character. -/
def backslashChar : Char := Char.ofNat 92

/-- JSON whitespace. -/
def isJsonWs (c : Char) : Bool :=
  c = ' ' || c = Char.ofNat 9 || c = Char.ofNat 10 || c = Char.ofNat 13

/-- Drop leading JSON whitespace. -/
def dropWs (cs : List Char) : List Char := cs.dropWhile isJsonWs

/-- Single-character string escapes of JSON (`\n`, `\t`, ...; other escaped
characters stand for themselves). -/
def escapeChar (c : Char) : Char :=
  if c = 'n' then Char.ofNat 10
  else if c = 't' then Char.ofNat 9
  else if c = 'r' then Char.ofNat 13
  else if c = 'b' then Char.ofNat 8
  else if c = 'f' then Char.ofNat 12
  else c

/-- Parse the body of a JSON string literal (the opening quote has been
consumed); returns the decoded string and the input after the closing
quote. -/
def parseStringBody : List Char → Option (String × List Char)
  | [] => none
  | c :: cs =>
    if c = quoteChar then some ("", cs)
    else if c = backslashChar then
      match cs with
      | [] => none
      | e :: cs2 =>
        match parseStringBody cs2 with
        | some (s, r) => some (String.singleton (escapeChar e) ++ s, r)
        | none => none
    else
      match parseStringBody cs with
      | some (s, r) => some (String.singleton c ++ s, r)
      | none => none

/-- Decimal digits to a natural number. -/
def digitsToNat (ds : List Char) : Nat :=
  ds.foldl (fun n c => n * 10 + (c.toNat - 48)) 0

/-- Parse a JSON number (optional minus, integer part, optional fraction). -/
def parseNumber (input : List Char) : Option (ℚ × List Char) :=
  let signRest : Bool × List Char :=
    match input with
    | c :: cs => if c = '-' then (true, cs) else (false, input)
    | [] => (false, [])
  let neg := signRest.1
  let rest := signRest.2
  let intDigits := rest.takeWhile Char.isDigit
  let rest1 := rest.dropWhile Char.isDigit
  if intDigits = [] then none
  else
    let iv : ℚ := (digitsToNat intDigits : ℚ)
    let fracRest : ℚ × List Char :=
      match rest1 with
      | c :: cs =>
        if c = '.' then
          let fd := cs.takeWhile Char.isDigit
          let r := cs.dropWhile Char.isDigit
          ((digitsToNat fd : ℚ) / ((10 : ℚ) ^ fd.length), r)
        else (0, rest1)
      | [] => (0, rest1)
    let v := iv + fracRest.1
    some (if neg then -v else v, fracRest.2)

/-- Match an expected literal tail (e.g. `rue` after `t`). -/
def stripToken : List Char → List Char → Option (List Char)
  | [], rest => some rest
  | e :: es, c :: cs => if c = e then stripToken es cs else none
  | _ :: _, [] => none

mutual

/-- Parse one JSON value; `fuel` bounds the nesting depth. -/
def parseJsonVal : Nat → List Char → Option (Json × List Char)
  | 0, _ => none
  | fuel + 1, input =>
    match dropWs input with
    | [] => none
    | c :: cs =>
      if c = quoteChar then
        match parseStringBody cs with
        | some (s, r) => some (Json.str s, r)
        | none => none
      else if c = lbraceChar then
        match dropWs cs with
        | [] => none
        | d :: ds =>
          if d = rbraceChar then some (Json.obj [], ds)
          else
            match parseObjMembers fuel (d :: ds) with
            | some (ms, r) => some (Json.obj ms, r)
            | none => none
      else if c = '[' then
        match dropWs cs with
        | [] => none
        | d :: ds =>
          if d = ']' then some (Json.arr [], ds)
          else
            match parseArrItems fuel (d :: ds) with
            | some (xs, r) => some (Json.arr xs, r)
            | none => none
      else if c = 't' then
        match stripToken ['r', 'u', 'e'] cs with
        | some r => some (Json.bool true, r)
        | none => none
      else if c = 'f' then
        match stripToken ['a', 'l', 's', 'e'] cs with
        | some r => some (Json.bool false, r)
        | none => none
      else if c = 'n' then
        match stripToken ['u', 'l', 'l'] cs with
        | some r => some (Json.null, r)
        | none => none
      else
        match parseNumber (c :: cs) with
        | some (q, r) => some (Json.num q, r)
        | none => none

/-- Parse the members of a JSON object (input starts at the first key). -/
def parseObjMembers : Nat → List Char → Option (List (String × Json) × List Char)
  | 0, _ => none
  | fuel + 1, input =>
    match dropWs input with
    | [] => none
    | c :: cs =>
      if c = quoteChar then
        match parseStringBody cs with
        | some (key, r1) =>
          match dropWs r1 with
          | ':' :: r2 =>
            match parseJsonVal fuel r2 with
            | some (v, r3) =>
              match dropWs r3 with
              | ',' :: r4 =>
                match parseObjMembers fuel r4 with
                | some (ms, r5) => some ((key, v) :: ms, r5)
                | none => none
              | d :: r4 =>
                if d = rbraceChar then some ([(key, v)], r4) else none
              | [] => none
            | none => none
          | _ => none
        | none => none
      else none

/-- Parse the items of a JSON array (input starts at the first item). -/
def parseArrItems : Nat → List Char → Option (List Json × List Char)
  | 0, _ => none
  | fuel + 1, input =>
    match parseJsonVal fuel input with
    | some (v, r1) =>
      match dropWs r1 with
      | ',' :: r2 =>
        match parseArrItems fuel r2 with
        | some (xs, r3) => some (v :: xs, r3)
        | none => none
      | ']' :: r2 => some ([v], r2)
      | _ => none
    | none => none

end

/-- Model of `JSON.parse`: parse a whole document, allowing trailing
whitespace only; `none` is the builtin's thrown `SyntaxError`. -/
def jsonParse (s : String) : Option Json :=
  match parseJsonVal (s.length + 1) s.toList with
  | some (v, r) => if dropWs r = [] then some v else none
  | none => none

/-- A JavaScript exception surfaced by the analysis parsing step. -/
inductive JsError where
  | syntaxError : JsError
deriving DecidableEq, Repr

/-- `analyzeReports`, parsing step (src/unnamed/part_000 line 123):
`JSON.parse(response.text || '\x7b\x7d')`.  `response.text` may be
`undefined` (`none`) or a string; `undefined` and the empty string are
falsy, so they are replaced by the literal `'\x7b\x7d'` before parsing.
A thrown `SyntaxError` of the builtin becomes `Except.error`. -/
def parseResponse (responseText : Option String) : Except JsError Json :=
  let raw : String :=
    match responseText with
    | none => "\x7b\x7d"
    | some t => if t = "" then "\x7b\x7d" else t
  match jsonParse raw with
  | some v => Except.ok v
  | none => Except.error JsError.syntaxError

example : parseResponse none = Except.ok (Json.obj []) := by rfl
example : parseResponse (some "") = Except.ok (Json.obj []) := by rfl
example : parseResponse (some "\x7b") = Except.error JsError.syntaxError := by rfl
example : jsonParse "  \x7b\x7d  " = some (Json.obj []) := by rfl
example : jsonParse "garbage" = none := by rfl

/-! ## FileNormalizer: `compressImage` and `processFile`
(Uploader component, `src/components/Dashboard.tsx` lines 445-519)

An uploaded browser `File` is modelled by its name, MIME type string, raw
byte contents, the pixel dimensions the image decodes to (JavaScript
numbers, hence `ℚ`), and a flag for whether image decoding succeeds
(`img.onerror`). -/

structure RawFile where
  name : String
  fileType : String
  bytes : List Nat
  width : ℚ
  height : ℚ
  decodable : Bool

/-- `file.size` of the browser `File`. -/
def RawFile.size (f : RawFile) : Nat := f.bytes.length

/-- Observable output of the canvas re-encoding pipeline in
`compressImage`: the canvas dimensions and the `toDataURL('image/jpeg',
0.8)` arguments. -/
structure CompressedImage where
  width : ℚ
  height : ℚ
  quality : ℚ
  mimeType : String

/-- `const MAX_DIM = 2048` (Dashboard.tsx line 457). -/
def MAX_DIM : ℚ := 2048

/-- The dimension update of `compressImage` (Dashboard.tsx lines 454-466):
when either dimension exceeds `MAX_DIM`, the longer one becomes `MAX_DIM`
and the shorter one is multiplied by the same `MAX_DIM / longer` factor
(computed before the longer is overwritten). -/
def scaledDims (w h : ℚ) : ℚ × ℚ :=
  if w > MAX_DIM ∨ h > MAX_DIM then
    if w > h then (MAX_DIM, h * (MAX_DIM / w))
    else (w * (MAX_DIM / h), MAX_DIM)
  else (w, h)

/-- `compressImage` (Dashboard.tsx lines 445-483): downscale per
`scaledDims`, then re-encode through `canvas.toDataURL('image/jpeg',
0.8)`. -/
def compressImage (f : RawFile) : CompressedImage :=
  { width := (scaledDims f.width f.height).1,
    height := (scaledDims f.width f.height).2,
    quality := 8 / 10, mimeType := "image/jpeg" }

/-- The normalized payload carried in `FileData.base64`: either the jpeg
re-encoding of the (possibly downscaled) bitmap, or the raw bytes of a
PDF passed through unmodified. -/
inductive NormalizedData where
  | jpegImage (width height quality : ℚ) : NormalizedData
  | rawBytes (bytes : List Nat) : NormalizedData
deriving DecidableEq

/-- The `FileData` unit handed to `onFileSelect` (types.ts), with the
base64 payload kept structured. -/
structure ProcessedFile where
  data : NormalizedData
  mimeType : String
  name : String
deriving DecidableEq

/-- `const MAX_RAW_SIZE = 35 * 1024 * 1024` (Dashboard.tsx line 486). -/
def MAX_RAW_SIZE : Nat := 35 * 1024 * 1024

/-- Outcome of `processFile`: a selected file, or one of the three
`alert` paths (PDF too large / unsupported type / catch-all failure). -/
inductive ProcessOutcome where
  | selected (f : ProcessedFile) : ProcessOutcome
  | alertTooLarge : ProcessOutcome
  | alertUnsupported : ProcessOutcome
  | alertFailed : ProcessOutcome
deriving DecidableEq

/-- JavaScript `t.startsWith(p)` (`file.type.startsWith('image/')`,
Dashboard.tsx line 489), modelled as a prefix test on the character
list. -/
def strStartsWith (t p : String) : Bool := p.data.isPrefixOf t.data

/-- `processFile` (Dashboard.tsx lines 485-519): images of any size go
through `compressImage` (a decode error lands in the catch block); PDFs
are size-checked against `MAX_RAW_SIZE` and passed through unmodified;
anything else is rejected. -/
def processFile (f : RawFile) : ProcessOutcome :=
  if strStartsWith f.fileType "image/" then
    if f.decodable then
      let c := compressImage f
      ProcessOutcome.selected
        { data := NormalizedData.jpegImage c.width c.height c.quality,
          mimeType := c.mimeType, name := f.name }
    else ProcessOutcome.alertFailed
  else if f.fileType = "application/pdf" then
    if f.size > MAX_RAW_SIZE then ProcessOutcome.alertTooLarge
    else
      ProcessOutcome.selected
        { data := NormalizedData.rawBytes f.bytes, mimeType := f.fileType,
          name := f.name }
  else ProcessOutcome.alertUnsupported

/-! ## AnalysisContract: request construction
(`analyzeReports`, src/unnamed/part_000 lines 30-52) -/

/-- `FileData` as the service layer sees it (types.ts): an opaque base64
string plus MIME type and name. -/
structure FileData where
  base64 : String
  mimeType : String
  name : String
deriving DecidableEq

/-- One element of the `contents` array of the analysis request. -/
inductive ContentPart where
  | text (s : String) : ContentPart
  | inlineData (dta : String) (mime : String) : ContentPart
deriving DecidableEq

/-- The instruction text of the analysis request (the template literal at
src/unnamed/part_000 lines 34-35), whose middle depends on whether a
previous report is attached. -/
def analysisInstruction (hasPrevious : Bool) : String :=
  "Analyze the medical report. " ++
    (if hasPrevious then "Compare with the past record for trends."
     else "Single report analysis.") ++
    " \n    Focus on extracting patient metadata and clinical results accurately without using technical jargon."

/-- The marker text pushed before the second inline attachment. -/
def previousMarker : String := "PREVIOUS REPORT:"

/-- The ordered `contents` array built by `analyzeReports` (lines 33-52):
instruction text, inline latest; then, only when a previous file is
present, the marker text and the inline previous file. -/
def buildContents (latest : FileData) (previous : Option FileData) : List ContentPart :=
  let base : List ContentPart :=
    [ContentPart.text (analysisInstruction previous.isSome),
     ContentPart.inlineData latest.base64 latest.mimeType]
  match previous with
  | some p => base ++ [ContentPart.text previousMarker,
      ContentPart.inlineData p.base64 p.mimeType]
  | none => base

/-! ## Domain model and `percentChange`
(types.ts and `BiomarkerCard`, Dashboard.tsx line 292) -/

inductive HealthStatus where
  | high : HealthStatus
  | low : HealthStatus
  | normal : HealthStatus
deriving DecidableEq

structure Biomarker where
  name : String
  currentValue : ℚ
  previousValue : Option ℚ
  unit : String
  status : HealthStatus
  range : String
  analogy : String
  explanation : String

/-- `BiomarkerCard` (Dashboard.tsx lines 287, 292):
`hasHistory = bio.previousValue !== undefined` and
`percentChange = hasHistory && bio.previousValue !== 0 ?
((bio.currentValue - bio.previousValue!) / bio.previousValue!) * 100 :
null`. -/
def percentChange (bio : Biomarker) : Option ℚ :=
  match bio.previousValue with
  | some p =>
    if p ≠ 0 then some ((bio.currentValue - p) / p * 100) else none
  | none => none

/-- The fields of `AnalysisResult` (types.ts) that the chat layer reads.
Optional metadata may be absent at runtime (the lenient parse can return
an object missing them), hence `Option`. -/
structure AnalysisResult where
  patientName : Option String
  age : Option String
  gender : Option String
  collectionDate : Option String
  hospitalName : Option String
  summary : String
  executiveSummary : Option String
  biomarkers : List Biomarker

/-! ## Chat session (`ChatWindow.tsx` and `chatWithContext`) -/

inductive Role where
  | user : Role
  | assistant : Role
deriving DecidableEq

structure ChatMessage where
  role : Role
  content : String
deriving DecidableEq

/-- One element of the `history` array built in `handleSendMessage`
(ChatWindow.tsx lines 63-66): the session role rendered as the string the
service layer receives. -/
structure HistoryMsg where
  role : String
  content : String
deriving DecidableEq

/-- `handleSendMessage`, history construction (ChatWindow.tsx lines 63-66):
`role: m.role === 'assistant' ? 'model' : 'user'`. -/
def toHistory (ms : List ChatMessage) : List HistoryMsg :=
  ms.map fun m =>
    { role := if m.role = Role.assistant then "model" else "user",
      content := m.content }

/-- One turn of the `ai.chats.create` history (src/unnamed/part_000
lines 149-152). -/
structure GeminiTurn where
  role : String
  parts : List String
deriving DecidableEq

/-- `chatWithContext`, history translation (src/unnamed/part_000 lines
149-152): `role: m.role === 'assistant' || m.role === 'model' ? 'model' :
'user'`, `parts: [\x7b text: String(m.content) \x7d]`. -/
def toGeminiTurns (hs : List HistoryMsg) : List GeminiTurn :=
  hs.map fun m =>
    { role := if m.role = "assistant" ∨ m.role = "model" then "model" else "user",
      parts := [m.content] }

/-- `setMessages(prev => ...)` in the streaming loop (ChatWindow.tsx lines
83-87): `prev.slice(0, -1)` with the last message's `content` replaced by
the accumulator. -/
def setLastContent (ms : List ChatMessage) (acc : String) : List ChatMessage :=
  match ms.getLast? with
  | none => []
  | some m => ms.dropLast ++ [{ role := m.role, content := acc }]

/-- The `for await` loop of `handleSendMessage` (ChatWindow.tsx lines
73-88) restricted to string chunks: each chunk is appended to the
accumulator `assistantResponse` and the trailing message's content is
replaced by the full accumulator. -/
def streamSteps : List ChatMessage → String → List String → List ChatMessage × String
  | ms, acc, [] => (ms, acc)
  | ms, acc, c :: cs => streamSteps (setLastContent ms (acc ++ c)) (acc ++ c) cs

/-- Every transcript the UI observes during the streaming loop: the state
before any chunk and the state after each chunk. -/
def streamTrace : List ChatMessage → String → List String → List (List ChatMessage)
  | ms, _, [] => [ms]
  | ms, acc, c :: cs => ms :: streamTrace (setLastContent ms (acc ++ c)) (acc ++ c) cs

/-- Every value taken by the accumulator `assistantResponse` during the
loop. -/
def accTrace : String → List String → List String
  | acc, [] => [acc]
  | acc, c :: cs => acc :: accTrace (acc ++ c) cs

/-- Concatenation of chunks in delivery order. -/
def concatAll : List String → String
  | [] => ""
  | c :: cs => c ++ concatAll cs

/-- The fallback assistant message of the catch block (ChatWindow.tsx
line 91). -/
def connectionFallback : String := "I am having trouble connecting. Please try again."

structure ChatState where
  messages : List ChatMessage
  input : String
  isLoading : Bool
deriving DecidableEq

/-- How the awaited chat stream resolves: a finite chunk list, a throw
before the placeholder is appended (`chatWithContext` itself rejects), or
a throw during iteration after some chunks arrived. -/
inductive SendOutcome where
  | success (cs : List String) : SendOutcome
  | failEarly : SendOutcome
  | failStreaming (cs : List String) : SendOutcome

/-- `handleSendMessage` (ChatWindow.tsx lines 54-95), whole-call model:
the guard `if (!text.trim() || isLoading) return;`, then append the user
message, clear the input, set `isLoading`; on a resolving stream append
the empty placeholder assistant message and run the streaming loop; on a
throw append the fallback message; `finally` clears `isLoading`.  The
second component records whether `chatWithContext` was invoked. -/
def handleSendMessage (s : ChatState) (text : String) (outcome : SendOutcome) :
    ChatState × Bool :=
  if text.trim = "" ∨ s.isLoading then (s, false)
  else
    let afterUser := s.messages ++ [{ role := Role.user, content := text }]
    match outcome with
    | SendOutcome.success cs =>
      let final := (streamSteps (afterUser ++ [{ role := Role.assistant, content := "" }]) "" cs).1
      ({ messages := final, input := "", isLoading := false }, true)
    | SendOutcome.failEarly =>
      ({ messages := afterUser ++ [{ role := Role.assistant, content := connectionFallback }],
         input := "", isLoading := false }, true)
    | SendOutcome.failStreaming cs =>
      let interrupted := (streamSteps (afterUser ++ [{ role := Role.assistant, content := "" }]) "" cs).1
      ({ messages := interrupted ++ [{ role := Role.assistant, content := connectionFallback }],
         input := "", isLoading := false }, true)

/-- The fixed fallback verdict sentence (ChatWindow.tsx line 28). -/
def greetingFallback : String := "I've finished reading your results."

/-- `context.patientName ? context.patientName.split(' ')[0] : 'there'`
(ChatWindow.tsx line 26). -/
def greetingName (ctx : AnalysisResult) : String :=
  match ctx.patientName with
  | some n => if n = "" then "there" else (n.splitOn " ").headD ""
  | none => "there"

/-- `context.executiveSummary || "I've finished reading your results."`
(ChatWindow.tsx line 28). -/
def greetingVerdict (ctx : AnalysisResult) : String :=
  match ctx.executiveSummary with
  | some v => if v = "" then greetingFallback else v
  | none => greetingFallback

/-- The greeting template literal (ChatWindow.tsx line 29). -/
def greeting (ctx : AnalysisResult) : String :=
  "Hi " ++ greetingName ctx ++ ", I've finished reading your results. " ++
    greetingVerdict ctx ++ " What would you like to dive into first?"

/-- The greeting effect (ChatWindow.tsx lines 24-38): when the transcript
is empty, replace it with the single assistant greeting message. -/
def initMessages (ctx : AnalysisResult) (msgs : List ChatMessage) : List ChatMessage :=
  if msgs.length = 0 then [{ role := Role.assistant, content := greeting ctx }]
  else msgs

/-- The chat states reachable in a `ChatWindow` session: the greeting
effect has run on the empty transcript, and each later step is either
typing into the input box or a full `handleSendMessage` call. -/
inductive Reachable (ctx : AnalysisResult) : ChatState → Prop
  | init : Reachable ctx { messages := initMessages ctx [], input := "", isLoading := false }
  | type (s : ChatState) (t : String) (h : Reachable ctx s) :
      Reachable ctx { messages := s.messages, input := t, isLoading := s.isLoading }
  | send (s : ChatState) (t : String) (o : SendOutcome) (h : Reachable ctx s) :
      Reachable ctx (handleSendMessage s t o).1

/-! ## Helper lemmas -/

theorem setLastContent_concat (rest : List ChatMessage) (r : Role) (old acc : String) :
    setLastContent (rest ++ [{ role := r, content := old }]) acc =
      rest ++ [{ role := r, content := acc }] := by
  simp [setLastContent, List.getLast?_concat, List.dropLast_concat]

theorem streamSteps_concat (cs : List String) :
    ∀ (rest : List ChatMessage) (r : Role) (acc : String),
    streamSteps (rest ++ [{ role := r, content := acc }]) acc cs =
      (rest ++ [{ role := r, content := acc ++ concatAll cs }], acc ++ concatAll cs) := by
  induction cs with
  | nil =>
    intro rest r acc
    simp [streamSteps, concatAll, String.append_empty]
  | cons c cs ih =>
    intro rest r acc
    simp only [streamSteps, concatAll]
    rw [setLastContent_concat, ih, String.append_assoc]

theorem streamTrace_concat (cs : List String) :
    ∀ (rest : List ChatMessage) (r : Role) (acc : String),
    streamTrace (rest ++ [{ role := r, content := acc }]) acc cs =
      (accTrace acc cs).map (fun a => rest ++ [{ role := r, content := a }]) := by
  induction cs with
  | nil => intro rest r acc; simp [streamTrace, accTrace]
  | cons c cs ih =>
    intro rest r acc
    simp only [streamTrace, accTrace, List.map]
    rw [setLastContent_concat, ih]

theorem accTrace_head (cs : List String) (acc : String) :
    (accTrace acc cs).head? = some acc := by
  cases cs <;> rfl

theorem accTrace_chain (cs : List String) :
    ∀ acc, List.Chain' (fun a b => ∃ t, a ++ t = b) (accTrace acc cs) := by
  induction cs with
  | nil => intro acc; simp [accTrace]
  | cons c cs ih =>
    intro acc
    simp only [accTrace]
    rw [List.chain'_cons']
    refine ⟨?_, ih (acc ++ c)⟩
    intro b hb
    rw [accTrace_head] at hb
    cases hb
    exact ⟨c, rfl⟩

theorem head?_append_left {α : Type} (l l2 : List α) (m : α) (h : l.head? = some m) :
    (l ++ l2).head? = some m := by
  cases l with
  | nil => simp at h
  | cons a t => simpa using h

theorem handleSend_head (s : ChatState) (text : String) (o : SendOutcome)
    (m : ChatMessage) (h : s.messages.head? = some m) :
    ((handleSendMessage s text o).1).messages.head? = some m := by
  unfold handleSendMessage
  by_cases hg : text.trim = "" ∨ s.isLoading = true
  · simp only [hg, if_pos]
    exact h
  · rw [if_neg hg]
    cases o with
    | success cs =>
      simp only
      rw [streamSteps_concat]
      exact head?_append_left _ _ _ (head?_append_left _ _ _ h)
    | failEarly =>
      exact head?_append_left _ _ _ (head?_append_left _ _ _ h)
    | failStreaming cs =>
      simp only
      rw [streamSteps_concat]
      exact head?_append_left _ _ _
        (head?_append_left _ _ _ (head?_append_left _ _ _ h))

/-! ## Claim theorems -/

/-- C1 (counterexample): the claim says every raw response string yields an
`AnalysisResult` rather than throwing; but on the malformed non-empty
response `"\x7b"` the parsing step of `analyzeReports` throws a
`SyntaxError` (the `|| '\x7b\x7d'` fallback only replaces empty or absent
text). -/
theorem parseResponse_malformed_throws :
    parseResponse (some "\x7b") = Except.error JsError.syntaxError := by rfl

/-- C1 (amended): a response with empty or absent text is parsed as the
empty JSON object (all required fields absent); a non-empty response is
parsed as JSON, a malformed one making `JSON.parse` throw (so the
`analyzeReports` promise rejects) rather than yielding an empty result. -/
theorem parseResponse_spec :
    parseResponse none = Except.ok (Json.obj []) ∧
    parseResponse (some "") = Except.ok (Json.obj []) ∧
    (∀ t : String, t ≠ "" → jsonParse t = none →
      parseResponse (some t) = Except.error JsError.syntaxError) ∧
    (∀ (t : String) (v : Json), t ≠ "" → jsonParse t = some v →
      parseResponse (some t) = Except.ok v) := by
  refine ⟨by rfl, by rfl, ?_, ?_⟩
  · intro t ht hp
    simp [parseResponse, ht, hp]
  · intro t v ht hp
    simp [parseResponse, ht, hp]

/-- C1 (witness for the amended theorem). -/
theorem parseResponse_spec_witness :
    parseResponse (some "\x7b\x7d") = Except.ok (Json.obj []) ∧
    parseResponse (some "oops") = Except.error JsError.syntaxError :=
  ⟨parseResponse_spec.2.2.2 "\x7b\x7d" (Json.obj []) (by decide) (by rfl),
   parseResponse_spec.2.2.1 "oops" (by decide) (by rfl)⟩

/-- C2: during the streaming loop the transcript observed after each chunk
is the unchanged earlier transcript plus the single trailing assistant
message holding the accumulator; the accumulator values grow by prefix
extension; the final assistant message is the concatenation of all chunks
in delivery order; chunks `["Hel", "lo"]` yield `"Hello"`. -/
theorem streaming_accumulation (rest : List ChatMessage) (cs : List String) :
    (streamSteps (rest ++ [{ role := Role.assistant, content := "" }]) "" cs).1 =
      rest ++ [{ role := Role.assistant, content := concatAll cs }] ∧
    streamTrace (rest ++ [{ role := Role.assistant, content := "" }]) "" cs =
      (accTrace "" cs).map (fun a => rest ++ [{ role := Role.assistant, content := a }]) ∧
    (∀ t ∈ streamTrace (rest ++ [{ role := Role.assistant, content := "" }]) "" cs,
      t.dropLast = rest ∧ t.length = rest.length + 1) ∧
    List.Chain' (fun a b => ∃ u, a ++ u = b) (accTrace "" cs) ∧
    (streamSteps [{ role := Role.user, content := "q" },
        { role := Role.assistant, content := "" }] "" ["Hel", "lo"]).1 =
      [{ role := Role.user, content := "q" },
       { role := Role.assistant, content := "Hello" }] := by
  refine ⟨?_, streamTrace_concat cs rest Role.assistant "", ?_, accTrace_chain cs "", by decide⟩
  · rw [streamSteps_concat]
    simp [String.empty_append]
  · intro t ht
    rw [streamTrace_concat] at ht
    rcases List.mem_map.mp ht with ⟨a, _, rfl⟩
    constructor
    · exact List.dropLast_concat ..
    · simp

/-- C2 (witness): the concrete trace for chunks `["Hel", "lo"]` after the
transcript `[user "q"]`. -/
theorem streaming_accumulation_witness :
    ([{ role := Role.user, content := "q" },
      { role := Role.assistant, content := "Hel" }] : List ChatMessage).dropLast =
        [{ role := Role.user, content := "q" }] ∧
    ([{ role := Role.user, content := "q" },
      { role := Role.assistant, content := "Hel" }] : List ChatMessage).length =
        [({ role := Role.user, content := "q" } : ChatMessage)].length + 1 :=
  (streaming_accumulation [{ role := Role.user, content := "q" }] ["Hel", "lo"]).2.2.1
    [{ role := Role.user, content := "q" }, { role := Role.assistant, content := "Hel" }]
    (by decide)

/-- C3: `handleSendMessage` is a no-op returning the state unchanged and
making no service call whenever a request is already pending
(`isLoading`) or the submitted text is empty after trimming; the input is
dropped, not queued. -/
theorem submit_noop_when_pending_or_blank (s : ChatState) (text : String)
    (o : SendOutcome) (h : s.isLoading = true ∨ text.trim = "") :
    handleSendMessage s text o = (s, false) := by
  unfold handleSendMessage
  rcases h with h | h <;> simp [h]

/-- C3 (witness): submitting `"hi"` while a send is pending changes
nothing. -/
theorem submit_noop_witness :
    handleSendMessage { messages := [], input := "", isLoading := true } "hi"
      (SendOutcome.success ["x"]) =
    ({ messages := [], input := "", isLoading := true }, false) :=
  submit_noop_when_pending_or_blank _ _ _ (Or.inl rfl)

/-- C7: the role translation applied before each chat call (the
`ChatWindow` history map composed with the `chatWithContext` turn map)
sends every assistant message to the service role `model` and every user
message to `user`, preserving order and content; in particular
`[user "hi", assistant "hello"]` becomes `[user ["hi"], model ["hello"]]`. -/
theorem chat_role_translation (ms : List ChatMessage) :
    toGeminiTurns (toHistory ms) =
      ms.map (fun m =>
        { role := if m.role = Role.assistant then "model" else "user",
          parts := [m.content] }) ∧
    toGeminiTurns (toHistory
        [{ role := Role.user, content := "hi" },
         { role := Role.assistant, content := "hello" }]) =
      [{ role := "user", parts := ["hi"] }, { role := "model", parts := ["hello"] }] := by
  constructor
  · unfold toGeminiTurns toHistory
    rw [List.map_map]
    apply List.map_congr_left
    intro m _
    cases hr : m.role <;> simp [Function.comp, hr]
  · decide

/-- A concrete biomarker with current value 120 and the given previous
value, for evaluating `percentChange`. -/
def sampleBiomarker (pv : Option ℚ) : Biomarker :=
  { name := "Glucose", currentValue := 120, previousValue := pv,
    unit := "mg/dL", status := HealthStatus.high, range := "70-100",
    analogy := "", explanation := "" }

/-- C8: the derived `percentChange` of a biomarker equals
`(current - previous) / previous` as a percentage, and is `none` — no
division performed — when the previous value is absent or zero;
`previous = 100, current = 120` gives `+20`. -/
theorem percentChange_spec :
    (∀ bio : Biomarker, percentChange bio =
      bio.previousValue.bind (fun p =>
        if p = 0 then none else some ((bio.currentValue - p) / p * 100))) ∧
    percentChange (sampleBiomarker (some 100)) = some 20 ∧
    percentChange (sampleBiomarker (some 0)) = none ∧
    percentChange (sampleBiomarker none) = none := by
  refine ⟨?_, ?_, by rfl, by rfl⟩
  · intro bio
    unfold percentChange
    cases bio.previousValue with
    | none => rfl
    | some p =>
      by_cases hp : p = 0 <;> simp [hp]
  · unfold percentChange sampleBiomarker
    norm_num

/-- Facts about the dimension update: longer output dimension 2048 and
exact aspect-ratio preservation when oversized, identity otherwise. -/
theorem scaledDims_spec (w h : ℚ) :
    ((w > 2048 ∨ h > 2048) →
      max (scaledDims w h).1 (scaledDims w h).2 = 2048 ∧
      (scaledDims w h).1 * h = (scaledDims w h).2 * w) ∧
    (w ≤ 2048 → h ≤ 2048 → scaledDims w h = (w, h)) := by
  unfold scaledDims MAX_DIM
  split_ifs with hc hwh
  · -- oversized, width the longer dimension
    have hw : (2048 : ℚ) < w := by
      rcases hc with hcw | hch
      · exact hcw
      · linarith
    refine ⟨fun _ => ⟨?_, ?_⟩, fun h1 _ => absurd hw (by linarith)⟩
    · rw [max_eq_left]
      rw [mul_div_assoc', div_le_iff₀ (by linarith)]
      nlinarith
    · field_simp
      ring
  · -- oversized, height the longer dimension
    have hwle : w ≤ h := not_lt.mp hwh
    have hh : (2048 : ℚ) < h := by
      rcases hc with hcw | hch
      · linarith
      · exact hch
    refine ⟨fun _ => ⟨?_, ?_⟩, fun _ h2 => absurd hh (by linarith)⟩
    · rw [max_eq_right]
      rw [mul_div_assoc', div_le_iff₀ (by linarith)]
      nlinarith
    · field_simp
      ring
  · -- both dimensions within 2048
    push_neg at hc
    exact ⟨fun hor => absurd hor (by push_neg; exact hc), fun _ _ => rfl⟩

/-- C4: an image-typed file is re-encoded as `image/jpeg` at quality 0.8
regardless of original format; when either decoded dimension exceeds
2048 the longer output dimension equals 2048 and the aspect ratio is
preserved exactly (`width * h = height * w`); when both are within 2048
the dimensions are unchanged. -/
theorem compressImage_spec (f : RawFile) :
    (compressImage f).mimeType = "image/jpeg" ∧
    (compressImage f).quality = 0.8 ∧
    ((f.width > 2048 ∨ f.height > 2048) →
      max (compressImage f).width (compressImage f).height = 2048 ∧
      (compressImage f).width * f.height = (compressImage f).height * f.width) ∧
    (f.width ≤ 2048 → f.height ≤ 2048 →
      (compressImage f).width = f.width ∧ (compressImage f).height = f.height) := by
  refine ⟨rfl, by norm_num [compressImage], ?_, ?_⟩
  · intro hc
    exact (scaledDims_spec f.width f.height).1 hc
  · intro h1 h2
    have he := (scaledDims_spec f.width f.height).2 h1 h2
    unfold compressImage
    rw [he]
    exact ⟨rfl, rfl⟩

/-- A 4096 x 1024 png upload. -/
def sampleLargeImage : RawFile :=
  { name := "scan.png", fileType := "image/png", bytes := [1, 2, 3],
    width := 4096, height := 1024, decodable := true }

/-- An 800 x 600 png upload. -/
def sampleSmallImage : RawFile :=
  { name := "small.png", fileType := "image/png", bytes := [1],
    width := 800, height := 600, decodable := true }

/-- C4 (witness): the 4096 x 1024 image is scaled so its longer dimension
is 2048 with the aspect ratio kept, and the 800 x 600 image keeps its
dimensions. -/
theorem compressImage_spec_witness :
    (max (compressImage sampleLargeImage).width (compressImage sampleLargeImage).height = 2048 ∧
      (compressImage sampleLargeImage).width * (1024 : ℚ) =
        (compressImage sampleLargeImage).height * 4096) ∧
    ((compressImage sampleSmallImage).width = 800 ∧
      (compressImage sampleSmallImage).height = 600) :=
  ⟨(compressImage_spec sampleLargeImage).2.2.1 (Or.inl (by norm_num [sampleLargeImage])),
   (compressImage_spec sampleSmallImage).2.2.2 (by norm_num [sampleSmallImage])
     (by norm_num [sampleSmallImage])⟩

/-- C5: `processFile` rejects a PDF-typed file with the too-large alert
exactly when its raw size exceeds the 35 MB ceiling, and otherwise (at
exactly 35 MB or less) selects it with the raw bytes passed through
unmodified and the pdf MIME type. -/
theorem processFile_pdf_spec (f : RawFile) (hpdf : f.fileType = "application/pdf") :
    (f.size > MAX_RAW_SIZE → processFile f = ProcessOutcome.alertTooLarge) ∧
    (f.size ≤ MAX_RAW_SIZE → processFile f =
      ProcessOutcome.selected
        { data := NormalizedData.rawBytes f.bytes,
          mimeType := "application/pdf", name := f.name }) := by
  have himg : strStartsWith "application/pdf" "image/" = false := by decide
  constructor
  · intro hbig
    simp [processFile, hpdf, himg, hbig]
  · intro hsmall
    simp [processFile, hpdf, himg, Nat.not_lt.mpr hsmall]

/-- A 36 MB PDF upload. -/
def samplePdf36MB : RawFile :=
  { name := "big.pdf", fileType := "application/pdf",
    bytes := List.replicate (36 * 1024 * 1024) 7,
    width := 0, height := 0, decodable := false }

/-- A PDF upload of exactly 35 MB. -/
def samplePdf35MB : RawFile :=
  { name := "ok.pdf", fileType := "application/pdf",
    bytes := List.replicate (35 * 1024 * 1024) 7,
    width := 0, height := 0, decodable := false }

/-- C5 (witness): the 36 MB PDF is rejected as too large, the 35 MB PDF is
accepted with its bytes unmodified. -/
theorem processFile_pdf_spec_witness :
    processFile samplePdf36MB = ProcessOutcome.alertTooLarge ∧
    processFile samplePdf35MB = ProcessOutcome.selected
      { data := NormalizedData.rawBytes (List.replicate (35 * 1024 * 1024) 7),
        mimeType := "application/pdf", name := "ok.pdf" } :=
  ⟨(processFile_pdf_spec samplePdf36MB rfl).1
      (by simp only [samplePdf36MB, RawFile.size, List.length_replicate, MAX_RAW_SIZE]; norm_num),
    (processFile_pdf_spec samplePdf35MB rfl).2
      (by simp only [samplePdf35MB, RawFile.size, List.length_replicate, MAX_RAW_SIZE]; norm_num)⟩

/-- C9: the 35 MB ceiling is never applied to image-typed files:
`processFile` on an image never yields the too-large alert, and its
outcome does not depend on the raw byte contents (hence not on the raw
size) at all. -/
theorem processFile_image_no_size_check (f g : RawFile)
    (hf : strStartsWith f.fileType "image/" = true)
    (ht : g.fileType = f.fileType) (hw : g.width = f.width)
    (hh : g.height = f.height) (hd : g.decodable = f.decodable)
    (hn : g.name = f.name) :
    processFile f ≠ ProcessOutcome.alertTooLarge ∧ processFile g = processFile f := by
  constructor
  · cases hdec : f.decodable <;> simp [processFile, hf, hdec]
  · simp [processFile, compressImage, hf, ht, hw, hh, hd, hn]

/-- A 100 MB jpeg upload (far above the PDF ceiling). -/
def sampleHugeImage : RawFile :=
  { name := "huge.jpg", fileType := "image/jpeg",
    bytes := List.replicate (100 * 1024 * 1024) 9,
    width := 4096, height := 1024, decodable := true }

/-- The same upload as `sampleHugeImage` with only 3 bytes of content. -/
def sampleHugeImageTrimmed : RawFile :=
  { name := "huge.jpg", fileType := "image/jpeg", bytes := [1, 2, 3],
    width := 4096, height := 1024, decodable := true }

/-- C9 (witness): the 100 MB image is not rejected as too large, and
replacing its 100 MB of bytes by 3 bytes changes nothing about the
outcome. -/
theorem processFile_image_no_size_check_witness :
    processFile sampleHugeImage ≠ ProcessOutcome.alertTooLarge ∧
    processFile sampleHugeImageTrimmed = processFile sampleHugeImage :=
  ⟨(processFile_image_no_size_check sampleHugeImage sampleHugeImage
      (by decide) rfl rfl rfl rfl rfl).1,
   (processFile_image_no_size_check sampleHugeImage sampleHugeImageTrimmed
      (by decide) rfl rfl rfl rfl rfl).2⟩

/-- C6: the analysis request's content parts are, in order, the
instruction text and the inline latest file when no previous file is
given — the instruction then asking for a single-report analysis — and
the instruction text, inline latest, the `PREVIOUS REPORT:` marker and
the inline previous file when one is given — the instruction then asking
to compare with the past record for trends. -/
theorem buildContents_spec (latest p : FileData) :
    buildContents latest none =
      [ContentPart.text (analysisInstruction false),
       ContentPart.inlineData latest.base64 latest.mimeType] ∧
    buildContents latest (some p) =
      [ContentPart.text (analysisInstruction true),
       ContentPart.inlineData latest.base64 latest.mimeType,
       ContentPart.text previousMarker,
       ContentPart.inlineData p.base64 p.mimeType] ∧
    (∃ a b, analysisInstruction true =
      a ++ "Compare with the past record for trends." ++ b) ∧
    (∃ a b, analysisInstruction false = a ++ "Single report analysis." ++ b) ∧
    previousMarker = "PREVIOUS REPORT:" := by
  refine ⟨rfl, rfl, ⟨"Analyze the medical report. ",
    " \n    Focus on extracting patient metadata and clinical results accurately without using technical jargon.",
    by rfl⟩, ⟨"Analyze the medical report. ",
    " \n    Focus on extracting patient metadata and clinical results accurately without using technical jargon.",
    by rfl⟩, rfl⟩

/-- C10: with an analysis result present and an empty transcript, the
greeting effect installs exactly one assistant message, embedding the
result's executive summary when present and non-empty and the fixed
fallback sentence otherwise; in every reachable chat state the transcript
is non-empty and its first message is that assistant greeting — so the
user never observes an empty transcript and the first message always has
role assistant. -/
theorem chat_greeting_invariant (ctx : AnalysisResult) :
    initMessages ctx [] = [{ role := Role.assistant, content := greeting ctx }] ∧
    (∀ es, ctx.executiveSummary = some es → es ≠ "" →
      ∃ a b, greeting ctx = a ++ es ++ b) ∧
    ((ctx.executiveSummary = none ∨ ctx.executiveSummary = some "") →
      ∃ a b, greeting ctx = a ++ greetingFallback ++ b) ∧
    (∀ s, Reachable ctx s → s.messages ≠ [] ∧
      s.messages.head? = some { role := Role.assistant, content := greeting ctx }) := by
  refine ⟨rfl, ?_, ?_, ?_⟩
  · intro es hes hne
    refine ⟨"Hi " ++ greetingName ctx ++ ", I've finished reading your results. ",
      " What would you like to dive into first?", ?_⟩
    simp [greeting, greetingVerdict, hes, hne, String.append_assoc]
  · intro habs
    refine ⟨"Hi " ++ greetingName ctx ++ ", I've finished reading your results. ",
      " What would you like to dive into first?", ?_⟩
    rcases habs with h | h <;> simp [greeting, greetingVerdict, h, String.append_assoc]
  · intro s hs
    induction hs with
    | init =>
      constructor
      · simp [initMessages]
      · simp [initMessages]
    | type s t h ih => exact ih
    | send s t o h ih =>
      have hh := handleSend_head s t o _ ih.2
      refine ⟨?_, hh⟩
      intro hnil
      rw [hnil] at hh
      simp at hh

/-- A concrete analysis result for exercising the greeting. -/
def sampleAnalysis : AnalysisResult :=
  { patientName := some "Jane Doe", age := some "44", gender := some "F",
    collectionDate := some "2024-01-02", hospitalName := some "City Lab",
    summary := "Trend Snapshot",
    executiveSummary := some "Your heart health results look fantastic.",
    biomarkers := [] }

/-- C10 (witness): for the sample result the greeting embeds the executive
summary, and the initial reachable state has the assistant greeting as
its non-empty transcript's first message. -/
theorem chat_greeting_invariant_witness :
    (∃ a b, greeting sampleAnalysis =
      a ++ "Your heart health results look fantastic." ++ b) ∧
    ({ messages := initMessages sampleAnalysis [], input := "",
       isLoading := false } : ChatState).messages ≠ [] :=
  ⟨(chat_greeting_invariant sampleAnalysis).2.1
      "Your heart health results look fantastic." rfl (by decide),
   ((chat_greeting_invariant sampleAnalysis).2.2.2 _ Reachable.init).1⟩
